import Mathlib

/-!
Shallow embedding of the reward-recommendation engine of
`backend/app/services/recommendation_engine.py` together with the data model
of `backend/app/db/models.py` that the engine reads.

Conventions of the embedding:
* Python floats are modelled as rationals (`ℚ`); the claims under study are
  about the algebraic structure of the computations, not float rounding.
* Nullable columns become `Option`; Python truthiness of `maximum_spend`
  (falsy for both `None` and `0.0`) is modelled explicitly.
* The database session is modelled by explicit lists of rows; each ORM query
  of the source becomes the corresponding `filter`/`find?` over those lists.
* Dicts iterated by the source become association lists in insertion order.
-/

set_option allowUnsafeReducibility true in
attribute [semireducible] Rat.mul Rat.add Rat.sub Rat.neg Rat.div Rat.inv Rat.blt

namespace CardRec

/-- Row of `categories` (only the fields the engine reads). -/
structure CategoryS where
  id : Nat
  name : String
  deriving DecidableEq

/-- Enum `RewardType` of `models.py`. -/
inductive RewardType where
  | cashback
  | points
  | miles
  deriving DecidableEq

/-- Row of `card_rewards`.  `category` models the ORM relationship (present
iff the nullable `category_id` foreign key is set, and carrying the joined
category row); `conditions` and non-engine columns are carried for
completeness where the claims mention them. -/
structure CardReward where
  id : Nat
  credit_card_id : Nat
  category : Option CategoryS
  merchant_id : Option Nat
  reward_type : RewardType
  reward_rate : ℚ
  minimum_spend : ℚ
  maximum_spend : Option ℚ
  is_active : Bool
  deriving DecidableEq

/-- The `category_id` column of a `card_rewards` row, derived from the
relationship so the two stay consistent as they are in the ORM. -/
def CardReward.category_id (r : CardReward) : Option Nat :=
  r.category.map (fun c => c.id)

/-- Row of `credit_cards` (the fields the engine reads). -/
structure CreditCard where
  id : Nat
  name : String
  bank : String
  annual_fee : ℚ
  is_active : Bool
  deriving DecidableEq

/-- Row of `merchants`, with the joined `category` relationship (the
`category_id` column is `category.id`; it is non-nullable in the schema). -/
structure Merchant where
  id : Nat
  name : String
  category : CategoryS
  deriving DecidableEq

/-- Row of `expenses`.  `day` is the expense date as an absolute day count
(used by the window filter `start_date <= expense_date <= end_date`); `ym`
is the calendar (year, month) bucket of the same date (used by the
`extract('year')`/`extract('month')` grouping).  The two are independent
projections of the one `expense_date` column. -/
structure Expense where
  user_id : Nat
  merchant_id : Nat
  amount : ℚ
  day : Int
  ym : Int
  deriving DecidableEq

/-- Row of `user_cards`, with the joined `credit_card` relationship. -/
structure UserCard where
  user_id : Nat
  is_active : Bool
  credit_card : CreditCard
  deriving DecidableEq

/-- One entry of the per-category breakdown dict built by
`calculate_card_rewards` (keys `amount`, `rate`, `type`). -/
structure CatReward where
  amount : ℚ
  rate : ℚ
  rtype : RewardType
  deriving DecidableEq

/-- Return value of `calculate_card_rewards`. -/
structure CardRewardsResult where
  total_cashback : ℚ
  total_points : ℚ
  category_breakdown : List (String × CatReward)
  deriving DecidableEq

/-- Schema `CardCombination` (the fields `optimize_card_combination` fills). -/
structure CardCombination where
  cards : List CreditCard
  projected_cashback : ℚ
  projected_points : ℚ
  total_annual_fee : ℚ
  net_benefit : ℚ
  deriving DecidableEq

/-- The four shapes of dict returned by `get_purchase_recommendation`. -/
inductive AdviceResult where
  | noActiveCards
  | merchantNotFound
  | recommended (card : CreditCard) (reward_amount : ℚ) (reward_type : RewardType)
      (merchant : String) (category : String)
  | noSuitableCard
  deriving DecidableEq

/-- The query `db.query(CardReward).filter(credit_card_id == card.id,
is_active == True).all()` used by both reward calculators and the advisor. -/
def activeRewards (db : List CardReward) (cid : Nat) : List CardReward :=
  db.filter (fun r => r.credit_card_id == cid && r.is_active)

/-- The check `reward.category and reward.category.name == category`. -/
def matchesCategoryName (r : CardReward) (category : String) : Bool :=
  match r.category with
  | some c => c.name == category
  | none => false

/-- The cap block `applicable_amount = annual_amount; if reward.maximum_spend:
applicable_amount = min(applicable_amount, reward.maximum_spend * 12)`.
Python truthiness makes a stored cap of `0.0` behave like no cap. -/
def applicableAmount (annual : ℚ) (r : CardReward) : ℚ :=
  match r.maximum_spend with
  | none => annual
  | some m => if m = 0 then annual else min annual (m * 12)

/-- The best-rate scan of `calculate_card_rewards` (both the category loop
and the general-reward loop, which differ only in the per-rule test `p`).
The source computes `applicable_amount` inside this loop but never reads it
afterwards; the dead binding is kept to mirror the source. -/
def bestRateScan (annual : ℚ) (l : List CardReward) (p : CardReward → Bool)
    (init : ℚ × RewardType) : ℚ × RewardType :=
  l.foldl (fun acc r =>
    if p r then
      let _applicable_amount := applicableAmount annual r
      if acc.1 < r.reward_rate then (r.reward_rate, r.reward_type) else acc
    else acc) init

/-- Per-category rule selection of `calculate_card_rewards`: scan the
category-matching rules for the highest rate; if that leaves the best rate at
`0.0`, rescan the rules whose `category` is `None`. -/
def categoryBestRate (annual : ℚ) (rewards : List CardReward) (category : String) :
    ℚ × RewardType :=
  let s1 := bestRateScan annual rewards (fun r => matchesCategoryName r category)
    (0, RewardType.cashback)
  if s1.1 = 0 then bestRateScan annual rewards (fun r => r.category.isNone) s1 else s1

/-- The per-category dict entry `{'amount': ..., 'rate': ..., 'type': ...}`
built by one iteration of `calculate_card_rewards`' main loop. -/
def calcEntry (rewards : List CardReward) (cm : String × ℚ) : String × CatReward :=
  let annual := cm.2 * 12
  let rt := categoryBestRate annual rewards cm.1
  let amount := annual * rt.1
  (cm.1, ⟨amount, rt.1, rt.2⟩)

/-- One iteration of `calculate_card_rewards`' loop over the spending
pattern: select a rate, compute `reward_amount = annual_amount *
best_reward_rate`, record the breakdown entry, and accumulate into the
cashback or points total. -/
def calcStep (rewards : List CardReward) (acc : CardRewardsResult)
    (cm : String × ℚ) : CardRewardsResult :=
  let e := calcEntry rewards cm
  { total_cashback := acc.total_cashback
      + (if e.2.rtype = RewardType.cashback then e.2.amount else 0)
    total_points := acc.total_points
      + (if e.2.rtype = RewardType.cashback then 0 else e.2.amount)
    category_breakdown := acc.category_breakdown ++ [e] }

/-- `RecommendationEngine.calculate_card_rewards`.  Note the source computes
the reward as `annual_amount * best_reward_rate`, not from the capped
`applicable_amount`. -/
def calculate_card_rewards (db : List CardReward) (card : CreditCard)
    (spending_pattern : List (String × ℚ)) : CardRewardsResult :=
  spending_pattern.foldl (calcStep (activeRewards db card.id)) ⟨0, 0, []⟩

/-- Best-reward-amount scan of `_calculate_combination_rewards`: here the
capped `applicable_amount` is multiplied by the rate and the comparison is on
the resulting amount. -/
def combBestScan (annual : ℚ) (l : List CardReward) (p : CardReward → Bool)
    (init : ℚ × RewardType) : ℚ × RewardType :=
  l.foldl (fun acc r =>
    if p r then
      let amt := applicableAmount annual r * r.reward_rate
      if acc.1 < amt then (amt, r.reward_type) else acc
    else acc) init

/-- Per-category selection of `_calculate_combination_rewards`: scan every
card's active category-matching rules for the highest reward amount; if that
leaves `0.0`, rescan with the query that filters `CardReward.category == None`. -/
def combCategoryBest (db : List CardReward) (cards : List CreditCard)
    (category : String) (annual : ℚ) : ℚ × RewardType :=
  let s1 := cards.foldl (fun acc card =>
    combBestScan annual (activeRewards db card.id)
      (fun r => matchesCategoryName r category) acc) (0, RewardType.cashback)
  if s1.1 = 0 then
    cards.foldl (fun acc card =>
      combBestScan annual
        (db.filter (fun r => r.credit_card_id == card.id && r.is_active && r.category.isNone))
        (fun _ => true) acc) s1
  else s1

/-- One iteration of `_calculate_combination_rewards`' loop over the
spending pattern. -/
def combStep (db : List CardReward) (cards : List CreditCard) (acc : ℚ × ℚ)
    (cm : String × ℚ) : ℚ × ℚ :=
  let annual := cm.2 * 12
  let rt := combCategoryBest db cards cm.1 annual
  (acc.1 + (if rt.2 = RewardType.cashback then rt.1 else 0),
   acc.2 + (if rt.2 = RewardType.cashback then 0 else rt.1))

/-- `RecommendationEngine._calculate_combination_rewards`, returning the pair
`(total_cashback, total_points)`. -/
def _calculate_combination_rewards (db : List CardReward) (cards : List CreditCard)
    (spending_pattern : List (String × ℚ)) : ℚ × ℚ :=
  spending_pattern.foldl (combStep db cards) (0, 0)

/-- First-seen-order distinct elements, with an accumulator of already seen
keys (the key order a SQL `GROUP BY` / Python dict produces). -/
def dkAux {α : Type _} [DecidableEq α] (seen : List α) : List α → List α
  | [] => []
  | a :: l => if a ∈ seen then dkAux seen l else a :: dkAux (a :: seen) l

/-- Distinct elements of a list in first-seen order. -/
def distinctKeys {α : Type _} [DecidableEq α] (l : List α) : List α :=
  dkAux [] l

/-- The joined row set of the profiler query: in-window expenses of the user,
joined through `Merchant` to the category name, carrying the expense's
calendar-month bucket and amount.  The window is
`end_date - months*30 days <= expense_date <= end_date`. -/
def profilerRows (expenses : List Expense) (merchants : List Merchant)
    (user_id : Nat) (months : Nat) (today : Int) : List (String × Int × ℚ) :=
  (expenses.filter (fun e => e.user_id == user_id
      && decide (today - (months : Int) * 30 ≤ e.day)
      && decide (e.day ≤ today))).flatMap
    (fun e => (merchants.filter (fun m => m.id == e.merchant_id)).map
      (fun m => (m.category.name, e.ym, e.amount)))

/-- `RecommendationEngine.get_user_spending_pattern`.  The source issues one
query selecting `Category.name, avg(sum(Expense.amount))` whose two chained
`group_by` calls compose to a grouping by category and calendar month; the
embedding reads it the way its own label `avg_monthly_amount` (and the
engine's use of the value as a monthly figure) indicates: per category, the
monthly sums over the category's in-window months, averaged. -/
def get_user_spending_pattern (expenses : List Expense) (merchants : List Merchant)
    (user_id : Nat) (months : Nat) (today : Int) : List (String × ℚ) :=
  let rows := profilerRows expenses merchants user_id months today
  (distinctKeys (rows.map (fun r => r.1))).map (fun c =>
    let crows := (rows.filter (fun r => r.1 == c)).map (fun r => r.2)
    let ms := distinctKeys (crows.map (fun r => r.1))
    (c, (ms.map (fun mo => ((crows.filter (fun r => r.1 == mo)).map (fun r => r.2)).sum)).sum
      / (ms.length : ℚ)))

/-- `itertools.combinations`: all `n`-element subsequences of a list, in the
source list's order. -/
def combinations {α : Type _} : Nat → List α → List (List α)
  | 0, _ => [[]]
  | _ + 1, [] => []
  | n + 1, a :: l => ((combinations n l).map (fun c => a :: c)) ++ combinations (n + 1) l

/-- The `CardCombination` built for one enumerated card subset inside
`optimize_card_combination` (fees summed, net benefit, points valued at the
fixed `1 point = RM 0.01`). -/
def mkCombo (db : List CardReward) (spending_pattern : List (String × ℚ))
    (cards : List CreditCard) : CardCombination :=
  let cr := _calculate_combination_rewards db cards spending_pattern
  let total_annual_fee := (cards.map (fun c => c.annual_fee)).sum
  let net_benefit := cr.1 - total_annual_fee
  let points_cash_value := cr.2 * (1 / 100)
  ⟨cards, cr.1, cr.2, total_annual_fee, net_benefit + points_cash_value⟩

/-- Descending order on `net_benefit`, the sort key of
`best_combinations.sort(key=lambda x: x.net_benefit, reverse=True)`. -/
def netDesc (a b : CardCombination) : Prop :=
  b.net_benefit ≤ a.net_benefit

instance : DecidableRel netDesc :=
  fun a b => inferInstanceAs (Decidable (b.net_benefit ≤ a.net_benefit))

/-- `RecommendationEngine.optimize_card_combination`.  The profile is obtained
with the default three-month window as in the source; combination sizes run
over `range(1, min(max_cards + 1, len(available_cards) + 1))`; the final list
is stably sorted descending by net benefit (Python's stable sort is embedded
as a stable insertion sort under the same key order) and truncated to 5.  The
source also fetches the user's own cards into an unused local; that dead
query is omitted. -/
def optimize_card_combination (expenses : List Expense) (merchants : List Merchant)
    (db : List CardReward) (cards : List CreditCard) (user_id : Nat)
    (max_cards : Nat) (today : Int) : List CardCombination :=
  let spending_pattern := get_user_spending_pattern expenses merchants user_id 3 today
  if spending_pattern.isEmpty then []
  else
    let available_cards := cards.filter (fun c => c.is_active)
    let best_combinations :=
      (List.range' 1 (min max_cards available_cards.length)).flatMap
        (fun n => (combinations n available_cards).map (mkCombo db spending_pattern))
    (List.insertionSort netDesc best_combinations).take 5

/-- Per-rule candidate reward of `get_purchase_recommendation`: category
match is tested first, then merchant match, then fully general; anything else
contributes `0.0`. -/
def candReward (merchant : Merchant) (merchant_id : Nat) (amount : ℚ)
    (r : CardReward) : ℚ :=
  if r.category_id = some merchant.category.id then amount * r.reward_rate
  else if r.merchant_id = some merchant_id then amount * r.reward_rate
  else if r.category_id = none ∧ r.merchant_id = none then amount * r.reward_rate
  else 0

/-- One update step of the advisor's best-card tracking (`reward_amount >
best_reward`). -/
def advStep (merchant : Merchant) (merchant_id : Nat) (amount : ℚ)
    (st : Option CreditCard × ℚ × RewardType) (cr : CreditCard × CardReward) :
    Option CreditCard × ℚ × RewardType :=
  let amt := candReward merchant merchant_id amount cr.2
  if st.2.1 < amt then (some cr.1, amt, cr.2.reward_type) else st

/-- The advisor's opening query: the user's `user_cards` joined with
`CreditCard`, both rows active. -/
def ownedActive (user_cards : List UserCard) (user_id : Nat) : List UserCard :=
  user_cards.filter (fun uc => uc.user_id == user_id && uc.is_active && uc.credit_card.is_active)

/-- `RecommendationEngine.get_purchase_recommendation`. -/
def get_purchase_recommendation (db : List CardReward) (user_cards : List UserCard)
    (merchants : List Merchant) (user_id merchant_id : Nat) (amount : ℚ) :
    AdviceResult :=
  let ucs := ownedActive user_cards user_id
  if ucs.isEmpty then AdviceResult.noActiveCards
  else
    match merchants.find? (fun m => m.id == merchant_id) with
    | none => AdviceResult.merchantNotFound
    | some merchant =>
      let st := ucs.foldl (fun st uc =>
        (activeRewards db uc.credit_card.id).foldl
          (fun st r => advStep merchant merchant_id amount st (uc.credit_card, r)) st)
        (none, 0, RewardType.cashback)
      match st.1 with
      | some card =>
        AdviceResult.recommended card st.2.1 st.2.2 merchant.name merchant.category.name
      | none => AdviceResult.noSuitableCard

/-! ### Concrete rows reused by the witnesses and counterexamples -/

/-- A category row used in concrete scenarios. -/
def catDining : CategoryS := ⟨1, "Dining"⟩

/-- A card used in concrete scenarios. -/
def cardA : CreditCard := ⟨1, "Card A", "Bank A", 0, true⟩

/-- A second card used in concrete scenarios. -/
def cardB : CreditCard := ⟨2, "Card B", "Bank B", 0, true⟩

/-- A merchant belonging to `catDining`. -/
def merchShell : Merchant := ⟨5, "Shell", catDining⟩

/-- C1: the source computes the per-category reward as
`annual_amount * best_reward_rate`, leaving the computed `applicable_amount`
unused, so with monthly amount 400 and a monthly cap of 300 at rate 1/20 the
category's reward is `400*12*(1/20) = 240` while the documented capped value
is `min(400*12, 300*12)*(1/20) = 180`. -/
theorem calculate_card_rewards_cap_ignored_eval :
    (calculate_card_rewards
        [⟨1, 1, some catDining, none, RewardType.cashback, 1/20, 0, some 300, true⟩]
        cardA [("Dining", 400)]).total_cashback = 240
      ∧ min ((400 : ℚ) * 12) (300 * 12) * (1/20) = 180 ∧ (240 : ℚ) ≠ 180 := by
  decide

/-- C2 counterexample: with a merchant-specific rule at rate 1/100 on card A
and a category rule at rate 1/20 on card B, a purchase of 100 at that
merchant is recommended to card B with reward 5 — the advisor maximizes the
reward amount instead of preferring the merchant-specific rule (which would
give card A and reward 1). -/
theorem get_purchase_recommendation_precedence_counterexample :
    get_purchase_recommendation
        [⟨10, 1, none, some 5, RewardType.cashback, 1/100, 0, none, true⟩,
         ⟨11, 2, some catDining, none, RewardType.cashback, 1/20, 0, none, true⟩]
        [⟨1, true, cardA⟩, ⟨1, true, cardB⟩] [merchShell] 1 5 100
      = AdviceResult.recommended cardB 5 RewardType.cashback "Shell" "Dining"
      ∧ cardB.id ≠ cardA.id ∧ (5 : ℚ) ≠ 1 := by
  decide

/-- C3 counterexample: on a card whose only rule has a monthly cap of 100 at
rate 1/20 and a profile spending 200 monthly on the category,
`calculate_card_rewards` pays on the uncapped annual amount (120) while the
one-card combination score applies the cap (60), so the single-card subset is
not scored like the single-card calculator. -/
theorem single_card_refinement_counterexample :
    (calculate_card_rewards
        [⟨1, 1, some catDining, none, RewardType.cashback, 1/20, 0, some 100, true⟩]
        cardA [("Dining", 200)]).total_cashback = 120
      ∧ (_calculate_combination_rewards
          [⟨1, 1, some catDining, none, RewardType.cashback, 1/20, 0, some 100, true⟩]
          [cardA] [("Dining", 200)]).1 = 60
      ∧ (120 : ℚ) ≠ 60 := by
  decide

/-- C8 counterexample: a card holding a category rule of rate 0 and a general
rule of rate 1/50 uses the general rate for that category (the fallback fires
whenever the best category rate is 0.0, not only when no category rule
exists), contradicting the claim that the category rule's rate r1 is always
used. -/
theorem category_rule_zero_rate_counterexample :
    (calculate_card_rewards
        [⟨1, 1, some catDining, none, RewardType.cashback, 0, 0, none, true⟩,
         ⟨2, 1, none, none, RewardType.cashback, 1/50, 0, none, true⟩]
        cardA [("Dining", 100)]).category_breakdown
      = [("Dining", ⟨24, 1/50, RewardType.cashback⟩)]
      ∧ (1 : ℚ)/50 ≠ 0 := by
  decide

/-! ### Structure of the optimizer's output -/

/-- Every member of `combinations n l` is a length-`n` subsequence of `l`. -/
theorem combinations_sublist_length {α : Type _} :
    ∀ (n : ℕ) (l : List α) (c : List α), c ∈ combinations n l →
      c.Sublist l ∧ c.length = n := by
  intro n l
  induction l generalizing n with
  | nil =>
    intro c hc
    cases n with
    | zero =>
      simp only [combinations, List.mem_singleton] at hc
      subst hc
      exact ⟨List.Sublist.refl _, rfl⟩
    | succ n => simp [combinations] at hc
  | cons a t ih =>
    intro c hc
    cases n with
    | zero =>
      simp only [combinations, List.mem_singleton] at hc
      subst hc
      exact ⟨List.nil_sublist _, rfl⟩
    | succ n =>
      rw [combinations] at hc
      rcases List.mem_append.1 hc with h | h
      · rcases List.mem_map.1 h with ⟨c', hc', rfl⟩
        obtain ⟨hs, hl⟩ := ih n c' hc'
        exact ⟨List.Sublist.cons₂ a hs, by simp [hl]⟩
      · obtain ⟨hs, hl⟩ := ih (n + 1) c h
        exact ⟨List.Sublist.cons a hs, hl⟩

/-- Every combination the optimizer returns is `mkCombo` of a subsequence of
the active catalog whose length lies in `[1, min max_cards catalogSize]`. -/
theorem mem_optimize_enum
    (expenses : List Expense) (merchants : List Merchant) (db : List CardReward)
    (cards : List CreditCard) (user_id max_cards : Nat) (today : Int)
    (combo : CardCombination)
    (hm : combo ∈ optimize_card_combination expenses merchants db cards user_id max_cards today) :
    ∃ sub, sub.Sublist (cards.filter (fun c => c.is_active))
      ∧ 1 ≤ sub.length
      ∧ sub.length ≤ min max_cards (cards.filter (fun c => c.is_active)).length
      ∧ combo = mkCombo db (get_user_spending_pattern expenses merchants user_id 3 today) sub := by
  unfold optimize_card_combination at hm
  by_cases hp : (get_user_spending_pattern expenses merchants user_id 3 today).isEmpty
  · simp [hp] at hm
  · simp only [hp, if_false] at hm
    have hm' := (List.take_sublist 5 _).subset hm
    have hm'' := (List.perm_insertionSort netDesc _).mem_iff.1 hm'
    rcases List.mem_flatMap.1 hm'' with ⟨n, hn, hcombo⟩
    rcases List.mem_map.1 hcombo with ⟨sub, hsub, rfl⟩
    obtain ⟨hs, hl⟩ := combinations_sublist_length n _ sub hsub
    obtain ⟨h1, h2⟩ := List.mem_range'_1.1 hn
    refine ⟨sub, hs, ?_, ?_, rfl⟩
    · omega
    · omega

instance : IsTotal CardCombination netDesc :=
  ⟨fun a b => le_total b.net_benefit a.net_benefit⟩

instance : IsTrans CardCombination netDesc :=
  ⟨fun _ _ _ h₁ h₂ => le_trans h₂ h₁⟩

/-- C4: with `maxCards ≥ 1` and a catalog of distinct card rows, every
returned combination is duplicate-free with at most `maxCards` cards, the
result is sorted non-increasing by net benefit, and at most 5 combinations
are returned. -/
theorem optimize_card_combination_invariants
    (expenses : List Expense) (merchants : List Merchant) (db : List CardReward)
    (cards : List CreditCard) (user_id max_cards : Nat) (today : Int)
    (_hmc : 1 ≤ max_cards)
    (hnd : ((cards.filter (fun c => c.is_active)).map (fun c => c.id)).Nodup) :
    (∀ combo ∈ optimize_card_combination expenses merchants db cards user_id max_cards today,
        combo.cards.Nodup ∧ combo.cards.length ≤ max_cards)
      ∧ List.Sorted netDesc
          (optimize_card_combination expenses merchants db cards user_id max_cards today)
      ∧ (optimize_card_combination expenses merchants db cards user_id max_cards today).length
          ≤ 5 := by
  refine ⟨?_, ?_, ?_⟩
  · intro combo hm
    obtain ⟨sub, hs, _, hle, rfl⟩ :=
      mem_optimize_enum expenses merchants db cards user_id max_cards today combo hm
    constructor
    · exact hs.nodup (List.Nodup.of_map _ hnd)
    · exact le_trans hle (min_le_left _ _)
  · unfold optimize_card_combination
    by_cases hp : (get_user_spending_pattern expenses merchants user_id 3 today).isEmpty
    · simp [hp]
    · simp only [hp, if_false]
      exact List.Pairwise.sublist (List.take_sublist 5 _) (List.sorted_insertionSort netDesc _)
  · unfold optimize_card_combination
    by_cases hp : (get_user_spending_pattern expenses merchants user_id 3 today).isEmpty
    · simp [hp]
    · simp only [hp, if_false]
      exact List.length_take_le 5 _

/-- C5: every combination the optimizer produces carries
`net_benefit = cashback + points/100 − total fee`, the fee being the sum of
the member cards' annual fees. -/
theorem optimize_net_benefit_formula
    (expenses : List Expense) (merchants : List Merchant) (db : List CardReward)
    (cards : List CreditCard) (user_id max_cards : Nat) (today : Int)
    (combo : CardCombination)
    (hm : combo ∈ optimize_card_combination expenses merchants db cards user_id max_cards today) :
    combo.net_benefit
        = combo.projected_cashback + combo.projected_points * (1/100) - combo.total_annual_fee
      ∧ combo.total_annual_fee = (combo.cards.map (fun c => c.annual_fee)).sum := by
  obtain ⟨sub, _, _, _, rfl⟩ :=
    mem_optimize_enum expenses merchants db cards user_id max_cards today combo hm
  unfold mkCombo
  refine ⟨?_, rfl⟩
  ring

/-- C7: an empty spending profile, or an active-card catalog with no rows,
makes the optimizer return the empty list. -/
theorem optimize_empty_profile_or_catalog
    (expenses : List Expense) (merchants : List Merchant) (db : List CardReward)
    (cards : List CreditCard) (user_id max_cards : Nat) (today : Int)
    (h : get_user_spending_pattern expenses merchants user_id 3 today = []
      ∨ cards.filter (fun c => c.is_active) = []) :
    optimize_card_combination expenses merchants db cards user_id max_cards today = [] := by
  unfold optimize_card_combination
  rcases h with h | h
  · simp [h]
  · by_cases hp : (get_user_spending_pattern expenses merchants user_id 3 today).isEmpty
    · simp [hp]
    · simp [hp, h]

/-- A category rule on `cardA` at rate 1/20 with no cap. -/
def rlA : CardReward := ⟨1, 1, some catDining, none, RewardType.cashback, 1/20, 0, none, true⟩

/-- One in-window expense of 300 at `merchShell` for user 1. -/
def expW : Expense := ⟨1, 5, 300, 10, 202401⟩

/-- The combination the optimizer returns in the one-card witness world. -/
def comboW : CardCombination := ⟨[cardA], 180, 0, 0, 180⟩

/-- Witness for C4 at a concrete world with one card and one expense. -/
theorem optimize_card_combination_invariants_witness :
    (∀ combo ∈ optimize_card_combination [expW] [merchShell] [rlA] [cardA] 1 3 20,
        combo.cards.Nodup ∧ combo.cards.length ≤ 3)
      ∧ List.Sorted netDesc (optimize_card_combination [expW] [merchShell] [rlA] [cardA] 1 3 20)
      ∧ (optimize_card_combination [expW] [merchShell] [rlA] [cardA] 1 3 20).length ≤ 5 :=
  optimize_card_combination_invariants [expW] [merchShell] [rlA] [cardA] 1 3 20
    (by decide) (by decide)

/-- Witness for C5: the one-card witness world's output combination satisfies
the net-benefit formula. -/
theorem optimize_net_benefit_formula_witness :
    comboW ∈ optimize_card_combination [expW] [merchShell] [rlA] [cardA] 1 3 20
      ∧ comboW.net_benefit
          = comboW.projected_cashback + comboW.projected_points * (1/100)
            - comboW.total_annual_fee
      ∧ comboW.total_annual_fee = (comboW.cards.map (fun c => c.annual_fee)).sum := by
  refine ⟨by decide, ?_⟩
  exact optimize_net_benefit_formula [expW] [merchShell] [rlA] [cardA] 1 3 20 comboW (by decide)

/-- Witness for C7: a user with no expenses gets an empty recommendation
list. -/
theorem optimize_empty_profile_or_catalog_witness :
    optimize_card_combination [] [merchShell] [rlA] [cardA] 1 3 20 = [] :=
  optimize_empty_profile_or_catalog [] [merchShell] [rlA] [cardA] 1 3 20 (Or.inl (by decide))

/-- C6 counterexample: two same-month in-window transactions of 100 and 200
produce the profile value 300 (the average of the one month-with-data's sum),
not `(100+200)/3 = 100` as dividing by the three-month window would give. -/
theorem spending_pattern_counterexample :
    get_user_spending_pattern
        [⟨1, 5, 100, 5, 202401⟩, ⟨1, 5, 200, 6, 202401⟩] [merchShell] 1 3 20
      = [("Dining", 300)]
      ∧ ("Dining", ((100 + 200 : ℚ) / 3)) ∉
        get_user_spending_pattern
          [⟨1, 5, 100, 5, 202401⟩, ⟨1, 5, 200, 6, 202401⟩] [merchShell] 1 3 20 := by
  decide

/-! ### Minimum spend is never consulted -/

/-- Rewrite a rule's `minimum_spend` to an arbitrary new value, leaving every
other column unchanged. Two rule tables that differ only in their
`minimum_spend` values are exactly `db` and `db.map (setMinSpend f)` for a
suitable `f`. -/
def setMinSpend (f : CardReward → ℚ) (r : CardReward) : CardReward :=
  { r with minimum_spend := f r }

theorem activeRewards_setMinSpend (f : CardReward → ℚ) (db : List CardReward) (cid : Nat) :
    activeRewards (db.map (setMinSpend f)) cid = (activeRewards db cid).map (setMinSpend f) := by
  unfold activeRewards
  rw [List.filter_map]
  rfl

theorem applicableAmount_setMinSpend (f : CardReward → ℚ) (annual : ℚ) (r : CardReward) :
    applicableAmount annual (setMinSpend f r) = applicableAmount annual r := rfl

theorem bestRateScan_setMinSpend (f : CardReward → ℚ) (annual : ℚ) (l : List CardReward)
    (p : CardReward → Bool) (hp : ∀ r, p (setMinSpend f r) = p r) (init : ℚ × RewardType) :
    bestRateScan annual (l.map (setMinSpend f)) p init = bestRateScan annual l p init := by
  unfold bestRateScan
  rw [List.foldl_map]
  congr 1
  funext acc r
  rw [hp r]
  rfl

theorem combBestScan_setMinSpend (f : CardReward → ℚ) (annual : ℚ) (l : List CardReward)
    (p : CardReward → Bool) (hp : ∀ r, p (setMinSpend f r) = p r) (init : ℚ × RewardType) :
    combBestScan annual (l.map (setMinSpend f)) p init = combBestScan annual l p init := by
  unfold combBestScan
  rw [List.foldl_map]
  congr 1
  funext acc r
  rw [hp r]
  rfl

theorem bestRateScan_setMinSpend_cat (f : CardReward → ℚ) (annual : ℚ) (c : String)
    (l : List CardReward) (init : ℚ × RewardType) :
    bestRateScan annual (l.map (setMinSpend f)) (fun r => matchesCategoryName r c) init
      = bestRateScan annual l (fun r => matchesCategoryName r c) init :=
  bestRateScan_setMinSpend f annual l (fun r => matchesCategoryName r c) (fun _ => rfl) init

theorem bestRateScan_setMinSpend_gen (f : CardReward → ℚ) (annual : ℚ)
    (l : List CardReward) (init : ℚ × RewardType) :
    bestRateScan annual (l.map (setMinSpend f)) (fun r => r.category.isNone) init
      = bestRateScan annual l (fun r => r.category.isNone) init :=
  bestRateScan_setMinSpend f annual l (fun r => r.category.isNone) (fun _ => rfl) init

theorem combBestScan_setMinSpend_cat (f : CardReward → ℚ) (annual : ℚ) (c : String)
    (l : List CardReward) (init : ℚ × RewardType) :
    combBestScan annual (l.map (setMinSpend f)) (fun r => matchesCategoryName r c) init
      = combBestScan annual l (fun r => matchesCategoryName r c) init :=
  combBestScan_setMinSpend f annual l (fun r => matchesCategoryName r c) (fun _ => rfl) init

theorem combBestScan_setMinSpend_true (f : CardReward → ℚ) (annual : ℚ)
    (l : List CardReward) (init : ℚ × RewardType) :
    combBestScan annual (l.map (setMinSpend f)) (fun _ => true) init
      = combBestScan annual l (fun _ => true) init :=
  combBestScan_setMinSpend f annual l (fun _ => true) (fun _ => rfl) init

theorem filterGeneral_setMinSpend (f : CardReward → ℚ) (db : List CardReward) (cid : Nat) :
    (db.map (setMinSpend f)).filter
        (fun r => r.credit_card_id == cid && r.is_active && r.category.isNone)
      = (db.filter
          (fun r => r.credit_card_id == cid && r.is_active && r.category.isNone)).map
        (setMinSpend f) := by
  rw [List.filter_map]
  rfl

theorem categoryBestRate_setMinSpend (f : CardReward → ℚ) (annual : ℚ)
    (l : List CardReward) (c : String) :
    categoryBestRate annual (l.map (setMinSpend f)) c = categoryBestRate annual l c := by
  simp only [categoryBestRate, bestRateScan_setMinSpend_cat, bestRateScan_setMinSpend_gen]

theorem calcEntry_setMinSpend (f : CardReward → ℚ) (l : List CardReward) :
    calcEntry (l.map (setMinSpend f)) = calcEntry l := by
  funext cm
  simp only [calcEntry, categoryBestRate_setMinSpend]

theorem calcStep_setMinSpend (f : CardReward → ℚ) (l : List CardReward) :
    calcStep (l.map (setMinSpend f)) = calcStep l := by
  funext acc cm
  simp only [calcStep, calcEntry_setMinSpend]

theorem calculate_card_rewards_setMinSpend (f : CardReward → ℚ) (db : List CardReward)
    (card : CreditCard) (spending_pattern : List (String × ℚ)) :
    calculate_card_rewards (db.map (setMinSpend f)) card spending_pattern
      = calculate_card_rewards db card spending_pattern := by
  simp only [calculate_card_rewards, activeRewards_setMinSpend, calcStep_setMinSpend]

theorem combCategoryBest_setMinSpend (f : CardReward → ℚ) (db : List CardReward)
    (cards : List CreditCard) (c : String) (annual : ℚ) :
    combCategoryBest (db.map (setMinSpend f)) cards c annual
      = combCategoryBest db cards c annual := by
  simp only [combCategoryBest, activeRewards_setMinSpend, filterGeneral_setMinSpend,
    combBestScan_setMinSpend_cat, combBestScan_setMinSpend_true]

theorem combStep_setMinSpend (f : CardReward → ℚ) (db : List CardReward)
    (cards : List CreditCard) :
    combStep (db.map (setMinSpend f)) cards = combStep db cards := by
  funext acc cm
  simp only [combStep, combCategoryBest_setMinSpend]

theorem combination_rewards_setMinSpend (f : CardReward → ℚ) (db : List CardReward)
    (cards : List CreditCard) (spending_pattern : List (String × ℚ)) :
    _calculate_combination_rewards (db.map (setMinSpend f)) cards spending_pattern
      = _calculate_combination_rewards db cards spending_pattern := by
  simp only [_calculate_combination_rewards, combStep_setMinSpend]

theorem mkCombo_setMinSpend (f : CardReward → ℚ) (db : List CardReward)
    (spending_pattern : List (String × ℚ)) :
    mkCombo (db.map (setMinSpend f)) spending_pattern = mkCombo db spending_pattern := by
  funext cards
  simp only [mkCombo, combination_rewards_setMinSpend]

theorem optimize_setMinSpend (f : CardReward → ℚ) (expenses : List Expense)
    (merchants : List Merchant) (db : List CardReward) (cards : List CreditCard)
    (user_id max_cards : Nat) (today : Int) :
    optimize_card_combination expenses merchants (db.map (setMinSpend f)) cards
        user_id max_cards today
      = optimize_card_combination expenses merchants db cards user_id max_cards today := by
  simp only [optimize_card_combination, mkCombo_setMinSpend]

theorem advise_setMinSpend (f : CardReward → ℚ) (db : List CardReward)
    (user_cards : List UserCard) (merchants : List Merchant)
    (user_id merchant_id : Nat) (amount : ℚ) :
    get_purchase_recommendation (db.map (setMinSpend f)) user_cards merchants
        user_id merchant_id amount
      = get_purchase_recommendation db user_cards merchants user_id merchant_id amount := by
  have hst : ∀ merchant : Merchant,
      (ownedActive user_cards user_id).foldl
          (fun st uc => (activeRewards (db.map (setMinSpend f)) uc.credit_card.id).foldl
            (fun st r => advStep merchant merchant_id amount st (uc.credit_card, r)) st)
          (none, 0, RewardType.cashback)
        = (ownedActive user_cards user_id).foldl
          (fun st uc => (activeRewards db uc.credit_card.id).foldl
            (fun st r => advStep merchant merchant_id amount st (uc.credit_card, r)) st)
          (none, 0, RewardType.cashback) := by
    intro merchant
    congr 1
    funext st uc
    rw [activeRewards_setMinSpend, List.foldl_map]
    rfl
  simp only [get_purchase_recommendation, hst]

/-- C10: replacing every rule's `minimum_spend` by arbitrary new values (the
general shape of two rule tables differing only in that column) changes
nothing in `calculate_card_rewards`, `_calculate_combination_rewards`,
`optimize_card_combination`, or `get_purchase_recommendation`: the engine
never consults `minimum_spend`. -/
theorem minimum_spend_noninterference (f : CardReward → ℚ) (db : List CardReward) :
    (∀ card spending_pattern,
        calculate_card_rewards (db.map (setMinSpend f)) card spending_pattern
          = calculate_card_rewards db card spending_pattern)
    ∧ (∀ cards spending_pattern,
        _calculate_combination_rewards (db.map (setMinSpend f)) cards spending_pattern
          = _calculate_combination_rewards db cards spending_pattern)
    ∧ (∀ expenses merchants cards user_id max_cards today,
        optimize_card_combination expenses merchants (db.map (setMinSpend f)) cards
            user_id max_cards today
          = optimize_card_combination expenses merchants db cards user_id max_cards today)
    ∧ (∀ user_cards merchants user_id merchant_id amount,
        get_purchase_recommendation (db.map (setMinSpend f)) user_cards merchants
            user_id merchant_id amount
          = get_purchase_recommendation db user_cards merchants user_id merchant_id amount) :=
  ⟨fun card sp => calculate_card_rewards_setMinSpend f db card sp,
   fun cards sp => combination_rewards_setMinSpend f db cards sp,
   fun e m cards u mc t => optimize_setMinSpend f e m db cards u mc t,
   fun uc m u mid a => advise_setMinSpend f db uc m u mid a⟩

/-! ### Structure of the purchase advisor -/

/-- The (card, rule) pairs the advisor's nested loops visit, in visit
order. -/
def advPairs (db : List CardReward) (ucs : List UserCard) :
    List (CreditCard × CardReward) :=
  ucs.flatMap (fun uc => (activeRewards db uc.credit_card.id).map (fun r => (uc.credit_card, r)))

/-- The largest candidate reward over every rule of every owned active card
(0 when no candidate is positive), the quantity the advisor's running
maximum tracks. -/
def maxCandidate (db : List CardReward) (ucs : List UserCard) (merchant : Merchant)
    (merchant_id : Nat) (amount : ℚ) : ℚ :=
  ((advPairs db ucs).map (fun p => candReward merchant merchant_id amount p.2)).foldl max 0

theorem advFold_eq_pairs (db : List CardReward) (merchant : Merchant)
    (merchant_id : Nat) (amount : ℚ) :
    ∀ (ucs : List UserCard) (st : Option CreditCard × ℚ × RewardType),
      ucs.foldl (fun st uc => (activeRewards db uc.credit_card.id).foldl
          (fun st r => advStep merchant merchant_id amount st (uc.credit_card, r)) st) st
        = (advPairs db ucs).foldl (advStep merchant merchant_id amount) st := by
  intro ucs
  induction ucs with
  | nil => intro st; rfl
  | cons uc t ih =>
    intro st
    simp only [List.foldl_cons, advPairs, List.flatMap_cons, List.foldl_append, List.foldl_map]
    exact ih _

theorem advFold_reward (merchant : Merchant) (merchant_id : Nat) (amount : ℚ) :
    ∀ (L : List (CreditCard × CardReward)) (st : Option CreditCard × ℚ × RewardType),
      ((L.foldl (advStep merchant merchant_id amount) st)).2.1
        = (L.map (fun p => candReward merchant merchant_id amount p.2)).foldl max st.2.1 := by
  intro L
  induction L with
  | nil => intro st; rfl
  | cons p t ih =>
    intro st
    simp only [List.foldl_cons, List.map_cons]
    rw [ih]
    congr 1
    unfold advStep
    by_cases h : st.2.1 < candReward merchant merchant_id amount p.2
    · simp [h, max_eq_right (le_of_lt h)]
    · simp [h, max_eq_left (le_of_not_lt h)]

theorem advFold_none_iff (merchant : Merchant) (merchant_id : Nat) (amount : ℚ) :
    ∀ (L : List (CreditCard × CardReward)) (st : Option CreditCard × ℚ × RewardType),
      ((L.foldl (advStep merchant merchant_id amount) st)).1 = none
        ↔ (st.1 = none
          ∧ ∀ p ∈ L, candReward merchant merchant_id amount p.2 ≤ st.2.1) := by
  intro L
  induction L with
  | nil => intro st; simp
  | cons p t ih =>
    intro st
    simp only [List.foldl_cons]
    by_cases h : st.2.1 < candReward merchant merchant_id amount p.2
    · have hstep : advStep merchant merchant_id amount st p

          = (some p.1, candReward merchant merchant_id amount p.2, p.2.reward_type) := by
        unfold advStep
        simp [h]
      rw [hstep, ih]
      simp only [List.mem_cons]
      constructor
      · rintro ⟨h1, -⟩
        exact absurd h1 (by simp)
      · rintro ⟨-, h2⟩
        exact absurd (h2 p (Or.inl rfl)) (not_le.2 h)
    · have hstep : advStep merchant merchant_id amount st p = st := by
        unfold advStep
        simp [h]
      rw [hstep, ih]
      simp only [List.mem_cons]
      constructor
      · rintro ⟨h1, h2⟩
        refine ⟨h1, fun q hq => ?_⟩
        rcases hq with rfl | hq
        · exact le_of_not_lt h
        · exact h2 q hq
      · rintro ⟨h1, h2⟩
        exact ⟨h1, fun q hq => h2 q (Or.inr hq)⟩

/-- With owned active cards present and the merchant found, the advisor is
the fold of `advStep` over the visited (card, rule) pairs, packaged as a
recommendation when a card was selected. -/
theorem advise_eq_pairs_fold (db : List CardReward) (user_cards : List UserCard)
    (merchants : List Merchant) (user_id merchant_id : Nat) (amount : ℚ)
    (merchant : Merchant)
    (hne : ownedActive user_cards user_id ≠ [])
    (hfind : merchants.find? (fun m => m.id == merchant_id) = some merchant) :
    get_purchase_recommendation db user_cards merchants user_id merchant_id amount
      = (match ((advPairs db (ownedActive user_cards user_id)).foldl
            (advStep merchant merchant_id amount) (none, 0, RewardType.cashback)).1 with
        | some card =>
          AdviceResult.recommended card
            ((advPairs db (ownedActive user_cards user_id)).foldl
              (advStep merchant merchant_id amount) (none, 0, RewardType.cashback)).2.1
            ((advPairs db (ownedActive user_cards user_id)).foldl
              (advStep merchant merchant_id amount) (none, 0, RewardType.cashback)).2.2
            merchant.name merchant.category.name
        | none => AdviceResult.noSuitableCard) := by
  simp only [get_purchase_recommendation, List.isEmpty_eq_false.2 hne, hfind,
    Bool.false_eq_true, if_false]
  rw [advFold_eq_pairs]

/-- C9: the advisor reports no-active-cards exactly when the user owns no
active card; with cards and a found merchant it reports no-suitable-card
exactly when no rule's candidate reward is positive, and otherwise
recommends some card. -/
theorem purchase_recommendation_error_results (db : List CardReward)
    (user_cards : List UserCard) (merchants : List Merchant)
    (user_id merchant_id : Nat) (amount : ℚ) :
    (get_purchase_recommendation db user_cards merchants user_id merchant_id amount
        = AdviceResult.noActiveCards ↔ ownedActive user_cards user_id = [])
    ∧ ∀ merchant, ownedActive user_cards user_id ≠ [] →
        merchants.find? (fun m => m.id == merchant_id) = some merchant →
        ((get_purchase_recommendation db user_cards merchants user_id merchant_id amount
            = AdviceResult.noSuitableCard)
          ↔ ∀ p ∈ advPairs db (ownedActive user_cards user_id),
              candReward merchant merchant_id amount p.2 ≤ 0)
        ∧ ((∃ p ∈ advPairs db (ownedActive user_cards user_id),
              0 < candReward merchant merchant_id amount p.2) →
            ∃ card reward ty,
              get_purchase_recommendation db user_cards merchants user_id merchant_id amount
                = AdviceResult.recommended card reward ty merchant.name
                    merchant.category.name) := by
  constructor
  · by_cases he : (ownedActive user_cards user_id).isEmpty
    · constructor
      · intro _
        exact List.isEmpty_iff.1 he
      · intro _
        simp [get_purchase_recommendation, he]
    · have hne : ownedActive user_cards user_id ≠ [] := by
        intro hc
        exact he (by simp [hc])
      constructor
      · intro hres
        cases hfind : merchants.find? (fun m => m.id == merchant_id) with
        | none =>
          simp only [get_purchase_recommendation] at hres
          rw [List.isEmpty_eq_false.2 hne, hfind] at hres
          exact absurd hres (by simp)
        | some merchant =>
          rw [advise_eq_pairs_fold db user_cards merchants user_id merchant_id amount
            merchant hne hfind] at hres
          cases hst : ((advPairs db (ownedActive user_cards user_id)).foldl
              (advStep merchant merchant_id amount) (none, 0, RewardType.cashback)).1 with
          | none => rw [hst] at hres; exact absurd hres (by simp)
          | some card => rw [hst] at hres; exact absurd hres (by simp)
      · intro hc
        exact absurd hc hne
  · intro merchant hne hfind
    rw [advise_eq_pairs_fold db user_cards merchants user_id merchant_id amount
      merchant hne hfind]
    have hiff := advFold_none_iff merchant merchant_id amount
      (advPairs db (ownedActive user_cards user_id)) (none, 0, RewardType.cashback)
    constructor
    · constructor
      · intro hres
        refine (hiff.1 ?_).2
        cases hst : ((advPairs db (ownedActive user_cards user_id)).foldl
            (advStep merchant merchant_id amount) (none, 0, RewardType.cashback)).1 with
        | none => rfl
        | some card => rw [hst] at hres; exact absurd hres (by simp)
      · intro hall
        rw [hiff.2 ⟨rfl, hall⟩]
    · rintro ⟨p, hp, hpos⟩
      cases hst : ((advPairs db (ownedActive user_cards user_id)).foldl
          (advStep merchant merchant_id amount) (none, 0, RewardType.cashback)).1 with
      | none =>
        exact absurd ((hiff.1 hst).2 p hp) (not_le.2 hpos)
      | some card =>
        refine ⟨card,
          ((advPairs db (ownedActive user_cards user_id)).foldl
            (advStep merchant merchant_id amount) (none, 0, RewardType.cashback)).2.1,
          ((advPairs db (ownedActive user_cards user_id)).foldl
            (advStep merchant merchant_id amount) (none, 0, RewardType.cashback)).2.2, ?_⟩
        rfl

/-- C2 amended: the advisor applies no scope precedence across rules — with
owned active cards and a found merchant, whenever some rule's candidate
reward is positive it recommends a card whose reward equals the maximum of
`amount × rate` over all matching rules (merchant-scoped, category-scoped and
general rules competing purely on reward amount). -/
theorem get_purchase_recommendation_max_reward (db : List CardReward)
    (user_cards : List UserCard) (merchants : List Merchant)
    (user_id merchant_id : Nat) (amount : ℚ) (merchant : Merchant)
    (hne : ownedActive user_cards user_id ≠ [])
    (hfind : merchants.find? (fun m => m.id == merchant_id) = some merchant)
    (hpos : ∃ p ∈ advPairs db (ownedActive user_cards user_id),
        0 < candReward merchant merchant_id amount p.2) :
    ∃ card ty,
      get_purchase_recommendation db user_cards merchants user_id merchant_id amount
        = AdviceResult.recommended card
            (maxCandidate db (ownedActive user_cards user_id) merchant merchant_id amount)
            ty merchant.name merchant.category.name := by
  rw [advise_eq_pairs_fold db user_cards merchants user_id merchant_id amount
    merchant hne hfind]
  have hiff := advFold_none_iff merchant merchant_id amount
    (advPairs db (ownedActive user_cards user_id)) (none, 0, RewardType.cashback)
  have hrew := advFold_reward merchant merchant_id amount
    (advPairs db (ownedActive user_cards user_id)) (none, 0, RewardType.cashback)
  cases hst : ((advPairs db (ownedActive user_cards user_id)).foldl
      (advStep merchant merchant_id amount) (none, 0, RewardType.cashback)).1 with
  | none =>
    obtain ⟨p, hp, hpp⟩ := hpos
    exact absurd ((hiff.1 hst).2 p hp) (not_le.2 hpp)
  | some card =>
    have hmc : maxCandidate db (ownedActive user_cards user_id) merchant merchant_id amount
        = ((advPairs db (ownedActive user_cards user_id)).foldl
            (advStep merchant merchant_id amount) (none, 0, RewardType.cashback)).2.1 := by
      unfold maxCandidate
      exact hrew.symm
    refine ⟨card,
      ((advPairs db (ownedActive user_cards user_id)).foldl
        (advStep merchant merchant_id amount) (none, 0, RewardType.cashback)).2.2, ?_⟩
    rw [hmc]

/-- Rule table of the advisor witness world: a merchant-scoped rule on card A
and a category-scoped rule on card B. -/
def db2w : List CardReward :=
  [⟨10, 1, none, some 5, RewardType.cashback, 1/100, 0, none, true⟩,
   ⟨11, 2, some catDining, none, RewardType.cashback, 1/20, 0, none, true⟩]

/-- User 1 owns both cards, actively. -/
def ucs2w : List UserCard := [⟨1, true, cardA⟩, ⟨1, true, cardB⟩]

/-- Witness for C9: in a world whose only rule has rate 0, the advisor
reports no-suitable-card. -/
theorem purchase_recommendation_error_results_witness :
    get_purchase_recommendation
        [⟨1, 1, some catDining, none, RewardType.cashback, 0, 0, none, true⟩]
        [⟨1, true, cardA⟩] [merchShell] 1 5 100 = AdviceResult.noSuitableCard :=
  ((purchase_recommendation_error_results
      [⟨1, 1, some catDining, none, RewardType.cashback, 0, 0, none, true⟩]
      [⟨1, true, cardA⟩] [merchShell] 1 5 100).2 merchShell
    (by decide) (by decide)).1.mpr (by decide)

/-- Witness for the amended C2: in the two-card world the recommendation
carries the maximal candidate reward. -/
theorem get_purchase_recommendation_max_reward_witness :
    ∃ card ty,
      get_purchase_recommendation db2w ucs2w [merchShell] 1 5 100
        = AdviceResult.recommended card
            (maxCandidate db2w (ownedActive ucs2w 1) merchShell 5 100)
            ty merchShell.name merchShell.category.name :=
  get_purchase_recommendation_max_reward db2w ucs2w [merchShell] 1 5 100 merchShell
    (by decide) (by decide) (by decide)

/-! ### The category scan picks the top category rate -/

theorem bestRateScan_cons (annual : ℚ) (r : CardReward) (t : List CardReward)
    (p : CardReward → Bool) (init : ℚ × RewardType) :
    bestRateScan annual (r :: t) p init
      = bestRateScan annual t p
          (if p r then
            (if init.1 < r.reward_rate then (r.reward_rate, r.reward_type) else init)
          else init) := rfl

theorem bestRateScan_init_le (annual : ℚ) (p : CardReward → Bool) :
    ∀ (l : List CardReward) (init : ℚ × RewardType),
      init.1 ≤ (bestRateScan annual l p init).1 := by
  intro l
  induction l with
  | nil => intro init; exact le_refl _
  | cons r t ih =>
    intro init
    rw [bestRateScan_cons]
    refine le_trans ?_ (ih _)
    by_cases hp : p r
    · by_cases hlt : init.1 < r.reward_rate
      · simp [hp, hlt, le_of_lt hlt]
      · simp [hp, hlt]
    · simp [hp]

theorem bestRateScan_le_of_mem (annual : ℚ) (p : CardReward → Bool) :
    ∀ (l : List CardReward) (init : ℚ × RewardType) (rc : CardReward),
      rc ∈ l → p rc = true → rc.reward_rate ≤ (bestRateScan annual l p init).1 := by
  intro l
  induction l with
  | nil => intro init rc h; cases h
  | cons r t ih =>
    intro init rc hmem hp
    rw [bestRateScan_cons]
    rcases List.mem_cons.1 hmem with rfl | hmem'
    · refine le_trans ?_ (bestRateScan_init_le annual p t _)
      by_cases hlt : init.1 < rc.reward_rate
      · simp [hp, hlt]
      · simp [hp, hlt, le_of_not_lt hlt]
    · exact ih _ rc hmem' hp

theorem bestRateScan_le_bound (annual : ℚ) (p : CardReward → Bool) (B : ℚ) :
    ∀ (l : List CardReward) (init : ℚ × RewardType),
      (∀ r ∈ l, p r = true → r.reward_rate ≤ B) → init.1 ≤ B →
      (bestRateScan annual l p init).1 ≤ B := by
  intro l
  induction l with
  | nil => intro init _ h; exact h
  | cons r t ih =>
    intro init hb hi
    rw [bestRateScan_cons]
    refine ih _ (fun q hq hpq => hb q (List.mem_cons_of_mem _ hq) hpq) ?_
    by_cases hp : p r
    · by_cases hlt : init.1 < r.reward_rate
      · simp [hp, hlt, hb r (List.mem_cons_self r t) hp]
      · simp [hp, hlt, hi]
    · simp [hp, hi]

/-- When a category-matching rule `rc` has the top category rate and that
rate is positive, `categoryBestRate` returns exactly `rc`'s rate, whatever
the card's general rules say. -/
theorem categoryBestRate_eq_max (annual : ℚ) (l : List CardReward) (c : String)
    (rc : CardReward) (hmem : rc ∈ l) (hmatch : matchesCategoryName rc c = true)
    (hpos : 0 < rc.reward_rate)
    (hmax : ∀ r ∈ l, matchesCategoryName r c = true → r.reward_rate ≤ rc.reward_rate) :
    (categoryBestRate annual l c).1 = rc.reward_rate := by
  have h1 : (bestRateScan annual l (fun r => matchesCategoryName r c)
      (0, RewardType.cashback)).1 = rc.reward_rate :=
    le_antisymm
      (bestRateScan_le_bound annual _ rc.reward_rate l _ hmax (le_of_lt hpos))
      (bestRateScan_le_of_mem annual _ l _ rc hmem hmatch)
  simp only [categoryBestRate]
  rw [h1, if_neg (ne_of_gt hpos)]
  exact h1

theorem calc_fold_breakdown (rewards : List CardReward) :
    ∀ (pattern : List (String × ℚ)) (acc : CardRewardsResult),
      (pattern.foldl (calcStep rewards) acc).category_breakdown
        = acc.category_breakdown ++ pattern.map (calcEntry rewards) := by
  intro pattern
  induction pattern with
  | nil => intro acc; simp
  | cons cm t ih =>
    intro acc
    rw [List.foldl_cons, ih]
    simp [calcStep, List.append_assoc]

theorem calculate_breakdown (db : List CardReward) (card : CreditCard)
    (pattern : List (String × ℚ)) :
    (calculate_card_rewards db card pattern).category_breakdown
      = pattern.map (calcEntry (activeRewards db card.id)) := by
  unfold calculate_card_rewards
  rw [calc_fold_breakdown]
  rfl

/-- C8 amended: a category-matching rule `rc` whose rate is the card's top
category rate for `c` and is positive determines the rate used for `c` —
general rules are never consulted then; when every category rule's rate is 0
(in particular rate 0 with a general rule present, see the counterexample)
the code does fall back to general rules even though a category rule
exists. -/
theorem category_precedence_positive_rate (db : List CardReward) (card : CreditCard)
    (pattern : List (String × ℚ)) (c : String) (monthly : ℚ) (rc : CardReward)
    (hmem : rc ∈ activeRewards db card.id)
    (hmatch : matchesCategoryName rc c = true)
    (hpos : 0 < rc.reward_rate)
    (hmax : ∀ r ∈ activeRewards db card.id,
      matchesCategoryName r c = true → r.reward_rate ≤ rc.reward_rate)
    (hcm : (c, monthly) ∈ pattern) :
    ∃ e : CatReward,
      (c, e) ∈ (calculate_card_rewards db card pattern).category_breakdown
      ∧ e.rate = rc.reward_rate
      ∧ e.amount = monthly * 12 * rc.reward_rate := by
  have hrate := categoryBestRate_eq_max (monthly * 12) (activeRewards db card.id) c rc
    hmem hmatch hpos hmax
  refine ⟨(calcEntry (activeRewards db card.id) (c, monthly)).2, ?_, ?_, ?_⟩
  · rw [calculate_breakdown]
    exact List.mem_map_of_mem (calcEntry (activeRewards db card.id)) hcm
  · simp only [calcEntry]
    exact hrate
  · simp only [calcEntry]
    rw [hrate]

/-- The category rule of the C8 witness world (rate 1/20). -/
def rl8cat : CardReward := ⟨1, 1, some catDining, none, RewardType.cashback, 1/20, 0, none, true⟩

/-- The general rule of the C8 witness world, with the higher rate 1/2. -/
def rl8gen : CardReward := ⟨2, 1, none, none, RewardType.cashback, 1/2, 0, none, true⟩

/-- Witness for the amended C8: the category rate 1/20 is used although the
general rule's rate 1/2 is ten times larger. -/
theorem category_precedence_positive_rate_witness :
    ∃ e : CatReward,
      ("Dining", e) ∈ (calculate_card_rewards [rl8cat, rl8gen] cardA
          [("Dining", 100)]).category_breakdown
      ∧ e.rate = rl8cat.reward_rate
      ∧ e.amount = 100 * 12 * rl8cat.reward_rate :=
  category_precedence_positive_rate [rl8cat, rl8gen] cardA [("Dining", 100)]
    "Dining" 100 rl8cat (by decide) (by decide) (by decide) (by decide) (by decide)

/-! ### Single-card refinement between the two reward calculators -/

theorem applicableAmount_capfree (annual : ℚ) (r : CardReward)
    (h : r.maximum_spend = none ∨ r.maximum_spend = some 0) :
    applicableAmount annual r = annual := by
  rcases h with h | h <;> simp [applicableAmount, h]

theorem combBestScan_cons (annual : ℚ) (r : CardReward) (t : List CardReward)
    (p : CardReward → Bool) (init : ℚ × RewardType) :
    combBestScan annual (r :: t) p init
      = combBestScan annual t p
          (if p r then
            (if init.1 < applicableAmount annual r * r.reward_rate then
              (applicableAmount annual r * r.reward_rate, r.reward_type)
            else init)
          else init) := rfl

theorem bestRateScan_filter (annual : ℚ) (p : CardReward → Bool) :
    ∀ (l : List CardReward) (init : ℚ × RewardType),
      bestRateScan annual (l.filter p) (fun _ => true) init
        = bestRateScan annual l p init := by
  intro l
  induction l with
  | nil => intro init; rfl
  | cons r t ih =>
    intro init
    by_cases hp : p r
    · rw [List.filter_cons_of_pos hp, bestRateScan_cons, bestRateScan_cons]
      simp only [hp, if_true]
      exact ih _
    · rw [List.filter_cons_of_neg (by simp [hp]), bestRateScan_cons]
      simp only [hp, Bool.false_eq_true, if_false]
      exact ih init

theorem combBestScan_filter (annual : ℚ) (p : CardReward → Bool) :
    ∀ (l : List CardReward) (init : ℚ × RewardType),
      combBestScan annual (l.filter p) (fun _ => true) init
        = combBestScan annual l p init := by
  intro l
  induction l with
  | nil => intro init; rfl
  | cons r t ih =>
    intro init
    by_cases hp : p r
    · rw [List.filter_cons_of_pos hp, combBestScan_cons, combBestScan_cons]
      simp only [hp, if_true]
      exact ih _
    · rw [List.filter_cons_of_neg (by simp [hp]), combBestScan_cons]
      simp only [hp, Bool.false_eq_true, if_false]
      exact ih init

/-- With a positive annual amount and no effective caps, the amount-ordered
scan of `_calculate_combination_rewards` is the rate-ordered scan of
`calculate_card_rewards` scaled by the annual amount. -/
theorem combBestScan_eq_rate_scan (annual : ℚ) (hpos : 0 < annual)
    (p : CardReward → Bool) :
    ∀ (l : List CardReward) (init : ℚ × RewardType),
      (∀ r ∈ l, p r = true → applicableAmount annual r = annual) →
      combBestScan annual l p (annual * init.1, init.2)
        = (annual * (bestRateScan annual l p init).1,
           (bestRateScan annual l p init).2) := by
  intro l
  induction l with
  | nil => intro init _; rfl
  | cons r t ih =>
    intro init hcf
    rw [combBestScan_cons, bestRateScan_cons]
    by_cases hp : p r
    · rw [hcf r (List.mem_cons_self r t) hp]
      by_cases hlt : init.1 < r.reward_rate
      · have hmul : (annual * init.1, init.2).1 < annual * r.reward_rate :=
          (mul_lt_mul_left hpos).2 hlt
        rw [if_pos hp, if_pos hp, if_pos hmul, if_pos hlt]
        exact ih (r.reward_rate, r.reward_type)
          (fun q hq hpq => hcf q (List.mem_cons_of_mem _ hq) hpq)
      · have hmul : ¬ (annual * init.1, init.2).1 < annual * r.reward_rate :=
          fun hc => hlt ((mul_lt_mul_left hpos).1 hc)
        rw [if_pos hp, if_pos hp, if_neg hmul, if_neg hlt]
        exact ih init (fun q hq hpq => hcf q (List.mem_cons_of_mem _ hq) hpq)
    · rw [if_neg hp, if_neg hp]
      exact ih init (fun q hq hpq => hcf q (List.mem_cons_of_mem _ hq) hpq)

theorem combBestScan_zero (p : CardReward → Bool) :
    ∀ (l : List CardReward) (init : ℚ × RewardType), init.1 = 0 →
      (∀ r ∈ l, p r = true → applicableAmount 0 r = 0) →
      combBestScan 0 l p init = init := by
  intro l
  induction l with
  | nil => intro init _ _; rfl
  | cons r t ih =>
    intro init hi hcf
    rw [combBestScan_cons]
    by_cases hp : p r
    · rw [hcf r (List.mem_cons_self r t) hp]
      have hno : ¬ init.1 < 0 * r.reward_rate := by
        rw [zero_mul, hi]
        exact lt_irrefl 0
      rw [if_pos hp, if_neg hno]
      exact ih init hi (fun q hq hpq => hcf q (List.mem_cons_of_mem _ hq) hpq)
    · rw [if_neg hp]
      exact ih init hi (fun q hq hpq => hcf q (List.mem_cons_of_mem _ hq) hpq)

/-- The rule rows scanned by the combination calculator's general-reward
query are exactly the card's active rules filtered to `category == None`. -/
theorem generalQuery_eq_filter (db : List CardReward) (cid : Nat) :
    db.filter (fun r => r.credit_card_id == cid && r.is_active && r.category.isNone)
      = (activeRewards db cid).filter (fun r => r.category.isNone) := by
  unfold activeRewards
  rw [List.filter_filter]
  apply List.filter_congr
  intro r _
  cases hcc : (r.credit_card_id == cid) <;> cases ha : r.is_active <;>
    cases hn : r.category.isNone <;> rfl

theorem mem_generalQuery (db : List CardReward) (cid : Nat) (r : CardReward)
    (h : r ∈ db.filter (fun r => r.credit_card_id == cid && r.is_active && r.category.isNone)) :
    r ∈ activeRewards db cid := by
  rw [generalQuery_eq_filter] at h
  exact List.mem_of_mem_filter h

/-- With a positive annual amount and no effective caps on the card's active
rules, the single-card combination selection is the rate selection of
`calculate_card_rewards` scaled by the annual amount. -/
theorem combCategoryBest_single_pos (db : List CardReward) (card : CreditCard)
    (c : String) (annual : ℚ) (hpos : 0 < annual)
    (hcf : ∀ r ∈ activeRewards db card.id,
      r.maximum_spend = none ∨ r.maximum_spend = some 0) :
    combCategoryBest db [card] c annual
      = (annual * (categoryBestRate annual (activeRewards db card.id) c).1,
         (categoryBestRate annual (activeRewards db card.id) c).2) := by
  have hcf' : ∀ r ∈ activeRewards db card.id, applicableAmount annual r = annual :=
    fun r hr => applicableAmount_capfree annual r (hcf r hr)
  have h1 : combBestScan annual (activeRewards db card.id)
      (fun r => matchesCategoryName r c) (0, RewardType.cashback)
      = (annual * (bestRateScan annual (activeRewards db card.id)
          (fun r => matchesCategoryName r c) (0, RewardType.cashback)).1,
         (bestRateScan annual (activeRewards db card.id)
          (fun r => matchesCategoryName r c) (0, RewardType.cashback)).2) := by
    have h := combBestScan_eq_rate_scan annual hpos (fun r => matchesCategoryName r c)
      (activeRewards db card.id) (0, RewardType.cashback) (fun r hr _ => hcf' r hr)
    rw [show (annual * ((0 : ℚ), RewardType.cashback).1, ((0 : ℚ), RewardType.cashback).2)
        = ((0 : ℚ), RewardType.cashback) by simp] at h
    exact h
  have h2 : ∀ init : ℚ × RewardType,
      combBestScan annual
        (db.filter (fun r => r.credit_card_id == card.id && r.is_active && r.category.isNone))
        (fun _ => true) (annual * init.1, init.2)
      = (annual * (bestRateScan annual (activeRewards db card.id)
          (fun r => r.category.isNone) init).1,
         (bestRateScan annual (activeRewards db card.id)
          (fun r => r.category.isNone) init).2) := by
    intro init
    rw [generalQuery_eq_filter]
    rw [combBestScan_eq_rate_scan annual hpos (fun _ => true) _ init
      (fun r hr _ => hcf' r (List.mem_of_mem_filter hr))]
    rw [bestRateScan_filter]
  unfold combCategoryBest categoryBestRate
  simp only [List.foldl_cons, List.foldl_nil]
  rw [h1]
  by_cases hz : (bestRateScan annual (activeRewards db card.id)
      (fun r => matchesCategoryName r c) (0, RewardType.cashback)).1 = 0
  · have hz' : (annual * (bestRateScan annual (activeRewards db card.id)
        (fun r => matchesCategoryName r c) (0, RewardType.cashback)).1,
        (bestRateScan annual (activeRewards db card.id)
          (fun r => matchesCategoryName r c) (0, RewardType.cashback)).2).1 = 0 := by
      rw [hz]
      simp
    rw [if_pos hz', if_pos hz]
    exact h2 _
  · have hz' : ¬ (annual * (bestRateScan annual (activeRewards db card.id)
        (fun r => matchesCategoryName r c) (0, RewardType.cashback)).1,
        (bestRateScan annual (activeRewards db card.id)
          (fun r => matchesCategoryName r c) (0, RewardType.cashback)).2).1 = 0 := by
      simp only []
      exact fun hc => hz (by
        rcases mul_eq_zero.1 hc with h | h
        · exact absurd h (ne_of_gt hpos)
        · exact h)
    rw [if_neg hz', if_neg hz]

/-- With a zero annual amount and no effective caps, the single-card
combination selection returns a zero best reward. -/
theorem combCategoryBest_single_zero (db : List CardReward) (card : CreditCard)
    (c : String)
    (hcf : ∀ r ∈ activeRewards db card.id,
      r.maximum_spend = none ∨ r.maximum_spend = some 0) :
    (combCategoryBest db [card] c 0).1 = 0 := by
  have hcf0 : ∀ r ∈ activeRewards db card.id, applicableAmount 0 r = 0 :=
    fun r hr => applicableAmount_capfree 0 r (hcf r hr)
  have h1 : combBestScan 0 (activeRewards db card.id)
      (fun r => matchesCategoryName r c) (0, RewardType.cashback)
      = ((0 : ℚ), RewardType.cashback) :=
    combBestScan_zero _ _ _ rfl (fun r hr _ => hcf0 r hr)
  unfold combCategoryBest
  simp only [List.foldl_cons, List.foldl_nil]
  rw [h1]
  rw [if_pos rfl]
  rw [combBestScan_zero _ _ _ rfl
    (fun r hr _ => hcf0 r (mem_generalQuery db card.id r hr))]

theorem refine_fold_aux (db : List CardReward) (card : CreditCard)
    (hcf : ∀ r ∈ activeRewards db card.id,
      r.maximum_spend = none ∨ r.maximum_spend = some 0) :
    ∀ (pattern : List (String × ℚ)), (∀ cm ∈ pattern, 0 ≤ cm.2) →
    ∀ (acc : CardRewardsResult) (acc2 : ℚ × ℚ),
      acc.total_cashback = acc2.1 → acc.total_points = acc2.2 →
      (pattern.foldl (calcStep (activeRewards db card.id)) acc).total_cashback
          = (pattern.foldl (combStep db [card]) acc2).1
      ∧ (pattern.foldl (calcStep (activeRewards db card.id)) acc).total_points
          = (pattern.foldl (combStep db [card]) acc2).2 := by
  intro pattern
  induction pattern with
  | nil => intro _ acc acc2 h1 h2; exact ⟨h1, h2⟩
  | cons cm t ih =>
    intro hm acc acc2 h1 h2
    rw [List.foldl_cons, List.foldl_cons]
    have hannual : 0 ≤ cm.2 * 12 :=
      mul_nonneg (hm cm (List.mem_cons_self cm t)) (by norm_num)
    rcases hannual.lt_or_eq with hz | hz
    · refine ih (fun q hq => hm q (List.mem_cons_of_mem _ hq)) _ _ ?_ ?_
      · simp [calcStep, calcEntry, combStep,
          combCategoryBest_single_pos db card cm.1 (cm.2 * 12) hz hcf, h1]
      · simp [calcStep, calcEntry, combStep,
          combCategoryBest_single_pos db card cm.1 (cm.2 * 12) hz hcf, h2]
    · have hcz := combCategoryBest_single_zero db card cm.1 hcf
      refine ih (fun q hq => hm q (List.mem_cons_of_mem _ hq)) _ _ ?_ ?_
      · simp [calcStep, calcEntry, combStep, hz.symm, hcz, h1]
      · simp [calcStep, calcEntry, combStep, hz.symm, hcz, h2]

/-- C3 amended: the one-card combination score agrees with
`calculate_card_rewards` on total cashback and total points whenever the
profile amounts are non-negative and none of the card's active rules has an
effective monthly cap (`maximum_spend` null or 0); with an effective cap the
two diverge, see the counterexample. -/
theorem single_card_refinement_capfree (db : List CardReward) (card : CreditCard)
    (pattern : List (String × ℚ))
    (hm : ∀ cm ∈ pattern, 0 ≤ cm.2)
    (hcf : ∀ r ∈ activeRewards db card.id,
      r.maximum_spend = none ∨ r.maximum_spend = some 0) :
    (calculate_card_rewards db card pattern).total_cashback
        = (_calculate_combination_rewards db [card] pattern).1
    ∧ (calculate_card_rewards db card pattern).total_points
        = (_calculate_combination_rewards db [card] pattern).2 := by
  unfold calculate_card_rewards _calculate_combination_rewards
  exact refine_fold_aux db card hcf pattern hm ⟨0, 0, []⟩ (0, 0) rfl rfl

/-- Witness for the amended C3 at a cap-free one-rule world. -/
theorem single_card_refinement_capfree_witness :
    (calculate_card_rewards [rlA] cardA [("Dining", 300)]).total_cashback
        = (_calculate_combination_rewards [rlA] [cardA] [("Dining", 300)]).1
    ∧ (calculate_card_rewards [rlA] cardA [("Dining", 300)]).total_points
        = (_calculate_combination_rewards [rlA] [cardA] [("Dining", 300)]).2 :=
  single_card_refinement_capfree [rlA] cardA [("Dining", 300)] (by decide) (by decide)

/-! ### Grouping structure of the spending profiler -/

theorem mem_dkAux {α : Type _} [DecidableEq α] :
    ∀ (l seen : List α) (a : α), a ∈ dkAux seen l ↔ a ∈ l ∧ a ∉ seen := by
  intro l
  induction l with
  | nil => intro seen a; simp [dkAux]
  | cons b t ih =>
    intro seen a
    rw [dkAux]
    by_cases hb : b ∈ seen
    · rw [if_pos hb, ih]
      simp only [List.mem_cons]
      constructor
      · rintro ⟨h1, h2⟩
        exact ⟨Or.inr h1, h2⟩
      · rintro ⟨h1, h2⟩
        refine ⟨h1.resolve_left ?_, h2⟩
        rintro rfl
        exact h2 hb
    · rw [if_neg hb]
      simp only [List.mem_cons, ih, List.mem_cons]
      constructor
      · rintro (rfl | ⟨h1, h2⟩)
        · exact ⟨Or.inl rfl, hb⟩
        · exact ⟨Or.inr h1, fun hs => h2 (Or.inr hs)⟩
      · rintro ⟨h1 | h1, h2⟩
        · exact Or.inl h1
        · by_cases hab : a = b
          · exact Or.inl hab
          · exact Or.inr ⟨h1, fun hs => hs.elim hab h2⟩

theorem mem_distinctKeys {α : Type _} [DecidableEq α] (l : List α) (a : α) :
    a ∈ distinctKeys l ↔ a ∈ l := by
  unfold distinctKeys
  rw [mem_dkAux]
  simp

theorem nodup_dkAux {α : Type _} [DecidableEq α] :
    ∀ (l seen : List α), (dkAux seen l).Nodup := by
  intro l
  induction l with
  | nil => intro seen; simp [dkAux]
  | cons b t ih =>
    intro seen
    rw [dkAux]
    by_cases hb : b ∈ seen
    · rw [if_pos hb]
      exact ih seen
    · rw [if_neg hb]
      refine List.nodup_cons.2 ⟨?_, ih (b :: seen)⟩
      intro hmem
      exact ((mem_dkAux t (b :: seen) b).1 hmem).2 (List.mem_cons_self b seen)

theorem nodup_distinctKeys {α : Type _} [DecidableEq α] (l : List α) :
    (distinctKeys l).Nodup :=
  nodup_dkAux l []

theorem sum_map_add {α : Type _} (f g : α → ℚ) :
    ∀ l : List α, (l.map (fun a => f a + g a)).sum = (l.map f).sum + (l.map g).sum := by
  intro l
  induction l with
  | nil => simp
  | cons a t ih =>
    simp only [List.map_cons, List.sum_cons, ih]
    ring

theorem sum_beq_single {α : Type _} [BEq α] [LawfulBEq α] (v : ℚ) :
    ∀ (ks : List α) (k0 : α), ks.Nodup → k0 ∈ ks →
      (ks.map (fun k => if k0 == k then v else 0)).sum = v := by
  intro ks
  induction ks with
  | nil => intro k0 _ h; cases h
  | cons k t ih =>
    intro k0 hnd hm
    rw [List.map_cons, List.sum_cons]
    rcases List.mem_cons.1 hm with rfl | hm'
    · rw [if_pos (beq_self_eq_true k0)]
      have hzero : (t.map (fun k => if k0 == k then v else 0)).sum = 0 := by
        apply List.sum_eq_zero
        intro x hx
        rw [List.mem_map] at hx
        obtain ⟨q, hq, rfl⟩ := hx
        rw [if_neg]
        intro hc
        exact (List.nodup_cons.1 hnd).1 (beq_iff_eq.1 hc ▸ hq)
      rw [hzero, add_zero]
    · rw [if_neg, ih k0 (List.nodup_cons.1 hnd).2 hm', zero_add]
      intro hc
      exact (List.nodup_cons.1 hnd).1 (beq_iff_eq.1 hc ▸ hm')

/-- Summing the per-key fiber sums over a duplicate-free key list covering
all rows gives the total: the two-stage `GROUP BY` reduction preserves the
total amount. -/
theorem sum_fiber {α : Type _} [BEq α] [LawfulBEq α] (ks : List α) (hnd : ks.Nodup) :
    ∀ (rows : List (α × ℚ)), (∀ r ∈ rows, r.1 ∈ ks) →
      (ks.map (fun k => ((rows.filter (fun r => r.1 == k)).map (fun r => r.2)).sum)).sum
        = (rows.map (fun r => r.2)).sum := by
  intro rows
  induction rows with
  | nil =>
    intro _
    simp only [List.filter_nil, List.map_nil, List.sum_nil]
    exact List.sum_eq_zero (by simp)
  | cons r t ihr =>
    intro hmem
    have hsplit : ∀ k : α,
        ((List.filter (fun q => q.1 == k) (r :: t)).map (fun q => q.2)).sum
          = (if r.1 == k then r.2 else 0)
            + ((List.filter (fun q => q.1 == k) t).map (fun q => q.2)).sum := by
      intro k
      rw [List.filter_cons]
      by_cases h : r.1 == k
      · rw [if_pos h, if_pos h, List.map_cons, List.sum_cons]
      · rw [if_neg h, if_neg h, zero_add]
    rw [List.map_congr_left (fun k _ => hsplit k), sum_map_add,
      sum_beq_single r.2 ks r.1 hnd (hmem r (List.mem_cons_self r t)),
      ihr (fun q hq => hmem q (List.mem_cons_of_mem _ hq)),
      List.map_cons, List.sum_cons]

/-- C6 amended: the profile contains exactly the categories with at least
one in-window transaction (resolved through the merchant link), and maps each
such category to the sum of its in-window amounts divided by the number of
distinct calendar (year, month) buckets holding those transactions — the
average of the monthly sums over months with data, not the total divided by
`windowMonths`. -/
theorem spending_pattern_avg_of_monthly_sums (expenses : List Expense)
    (merchants : List Merchant) (user_id months : Nat) (today : Int) (c : String) :
    ((∃ v, (c, v) ∈ get_user_spending_pattern expenses merchants user_id months today)
      ↔ ∃ r ∈ profilerRows expenses merchants user_id months today, r.1 = c)
    ∧ ∀ v, (c, v) ∈ get_user_spending_pattern expenses merchants user_id months today →
        v = (((profilerRows expenses merchants user_id months today).filter
              (fun r => r.1 == c)).map (fun r => r.2.2)).sum
          / ((distinctKeys (((profilerRows expenses merchants user_id months today).filter
              (fun r => r.1 == c)).map (fun r => r.2.1))).length : ℚ) := by
  simp only [get_user_spending_pattern]
  refine ⟨⟨?_, ?_⟩, ?_⟩
  · rintro ⟨v, hv⟩
    rw [List.mem_map] at hv
    obtain ⟨c', hc', heq⟩ := hv
    have hc : c' = c := congrArg Prod.fst heq
    subst hc
    rw [mem_distinctKeys, List.mem_map] at hc'
    exact hc'
  · rintro ⟨r, hr, hrc⟩
    exact ⟨_, List.mem_map_of_mem _ ((mem_distinctKeys _ _).2
      (List.mem_map.2 ⟨r, hr, hrc⟩))⟩
  · intro v hv
    rw [List.mem_map] at hv
    obtain ⟨c', hc', heq⟩ := hv
    have hc : c' = c := congrArg Prod.fst heq
    subst c'
    have hv2 : (((distinctKeys
        ((((profilerRows expenses merchants user_id months today).filter
          (fun r => r.1 == c)).map (fun r => r.2)).map (fun r => r.1))).map
        (fun mo => (((((profilerRows expenses merchants user_id months today).filter
          (fun r => r.1 == c)).map (fun r => r.2)).filter
            (fun r => r.1 == mo)).map (fun r => r.2)).sum)).sum
        / ((distinctKeys
            ((((profilerRows expenses merchants user_id months today).filter
              (fun r => r.1 == c)).map (fun r => r.2)).map (fun r => r.1))).length : ℚ))
        = v := congrArg Prod.snd heq
    rw [← hv2]
    have hnum := sum_fiber
      (distinctKeys ((((profilerRows expenses merchants user_id months today).filter
        (fun r => r.1 == c)).map (fun r => r.2)).map (fun r => r.1)))
      (nodup_distinctKeys _)
      (((profilerRows expenses merchants user_id months today).filter
        (fun r => r.1 == c)).map (fun r => r.2))
      (fun q hq => (mem_distinctKeys _ _).2 (List.mem_map_of_mem _ hq))
    rw [hnum]
    simp only [List.map_map]
    rfl

/-- Witness for the amended C6: in the one-expense world the profile value
300 is the total 300 divided by the single month-with-data. -/
theorem spending_pattern_avg_of_monthly_sums_witness :
    (300 : ℚ)
      = (((profilerRows [expW] [merchShell] 1 3 20).filter
            (fun r => r.1 == "Dining")).map (fun r => r.2.2)).sum
        / ((distinctKeys (((profilerRows [expW] [merchShell] 1 3 20).filter
            (fun r => r.1 == "Dining")).map (fun r => r.2.1))).length : ℚ) :=
  (spending_pattern_avg_of_monthly_sums [expW] [merchShell] 1 3 20 "Dining").2 300
    (by decide)

end CardRec
